import Mathlib

/-!
Verification of the GTM_Parser crawl system against its design specification.

The development shallowly embeds the two core source modules:
* `simple_detector.py` — the Ghostery TrackerDB provider (`GhosteryTrackerDB`)
  and the per-page detection engine (`StealthDetector`), and
* `progress_manager.py` — the resumable crawl orchestrator (`ProgressManager`).

Python strings are modelled by `String`, with every string operation the code
uses (lower-casing, substring search, `str.replace`, `urlparse(...).netloc`,
lexicographic sorting) re-implemented over `List Char` so that all
definitions compute by kernel reduction.  Python `set` becomes `Finset String`,
Python `dict` (insertion-ordered, assignment overwrites in place) becomes an
association list with an in-place `upsert`.  Python floats in the attribution
scorer and timestamps are modelled by `ℚ`: every constant involved is an exact
decimal and only order comparisons are performed, so the embedding is exact.
File-system and network effects are modelled by explicit environment records
(does the cache file exist, how old is it, did the remote fetch succeed, ...).
-/

namespace GTMParser

/-- Lexicographic comparison of character lists by code point; this is the
order Python's `list.sort()` uses on strings. -/
def lexLe : List Char → List Char → Bool
  | [], _ => true
  | _ :: _, [] => false
  | a :: as, b :: bs => if a < b then true else if a = b then lexLe as bs else false

/-- The propositional form of `lexLe`, used as the sorting relation. -/
def strLe (a b : String) : Prop := lexLe a.toList b.toList = true

instance : DecidableRel strLe := fun a b => by unfold strLe; infer_instance

/-- Does `p` occur as a leading segment of `l`? (Python `str.startswith`.) -/
def startsWithChars : List Char → List Char → Bool
  | [], _ => true
  | _ :: _, [] => false
  | a :: as, b :: bs => a = b && startsWithChars as bs

/-- Does `p` occur as a trailing segment of `l`? (Python `str.endswith`.) -/
def endsWithChars (p l : List Char) : Bool :=
  startsWithChars p.reverse l.reverse

/-- Does `p` occur contiguously anywhere inside `l`? (Python `in` on strings.) -/
def hasSubChars (p : List Char) : List Char → Bool
  | [] => p.isEmpty
  | c :: rest => startsWithChars p (c :: rest) || hasSubChars p rest

/-- Python `needle in haystack` on strings. -/
def strContainsSub (haystack needle : String) : Bool :=
  hasSubChars needle.toList haystack.toList

/-- Python `str.lower` (ASCII case folding, as `Char.toLower` performs). -/
def strLower (s : String) : String := (s.toList.map Char.toLower).asString

/-- Left-to-right, non-overlapping removal of every occurrence of a (nonempty)
pattern; Python `s.replace(pat, '')`. -/
def removeAllChars (p : List Char) (l : List Char) : List Char :=
  if hp : p = [] then l
  else
    match l with
    | [] => []
    | c :: rest =>
      if startsWithChars p (c :: rest) then
        removeAllChars p ((c :: rest).drop p.length)
      else
        c :: removeAllChars p rest
termination_by l.length
decreasing_by
  · simp only [List.length_drop, List.length_cons]
    have : p.length ≠ 0 := fun h => hp (List.length_eq_zero.mp h)
    omega
  · simp

/-- Python `s.replace(pat, '')` lifted to `String`. -/
def strRemoveAll (s pat : String) : String :=
  (removeAllChars pat.toList s.toList).asString

/-- The suffix of `l` following the first occurrence of `p`, if `p` occurs. -/
def suffixAfterSub (p : List Char) : List Char → Option (List Char)
  | [] => if p = [] then some [] else none
  | c :: rest =>
    if startsWithChars p (c :: rest) then some ((c :: rest).drop p.length)
    else suffixAfterSub p rest

/-- The host component of an absolute URL: the characters after the first
`://` and before the first `/`, `?` or `#`.  This models what Python's
`urlparse(url).netloc` returns on the scheme-prefixed absolute URLs the
detector sees in network requests. -/
def netloc (url : String) : String :=
  match suffixAfterSub ("://".toList) url.toList with
  | some rest => (rest.takeWhile (fun c => !(c = '/' || c = '?' || c = '#'))).asString
  | none => ""

/-! ## Attribution Scorer (`StealthDetector._calculate_gtm_attribution`) -/

/-- Embedding of `StealthDetector._calculate_gtm_attribution`
(`simple_detector.py` lines 900-935).  The detector state it reads
(`self.gtm_load_time`, `self.gtm_detected`) is passed explicitly; the `url`
argument of the Python method is unused by the computation and omitted. -/
def calculate_gtm_attribution (gtm_load_time : Option ℚ) (gtm_detected : Bool)
    (request_timestamp : ℚ) : ℚ :=
  match gtm_load_time with
  | none => if gtm_detected then 7/10 else 0
  | some g =>
    let time_delta := request_timestamp - g
    if time_delta < 0 then 0
    else if time_delta ≤ 5 then 9/10
    else if time_delta ≤ 15 then 8/10
    else if time_delta ≤ 30 then 6/10
    else 3/10

/-- C4 counterexample: the claim asserts the attribution score is
non-increasing in `delta = t - g` for fixed `g`, but with `g = 0` the score
rises from `0` at `delta = -1` to `9/10` at `delta = 0`, so the function is
not non-increasing over all deltas. -/
theorem c4_attribution_not_monotone_counterexample :
    calculate_gtm_attribution (some 0) true (-1) = 0 ∧
    calculate_gtm_attribution (some 0) true 0 = 9/10 ∧
    (-1 : ℚ) ≤ 0 ∧
    ¬ calculate_gtm_attribution (some 0) true 0 ≤
        calculate_gtm_attribution (some 0) true (-1) := by
  norm_num [calculate_gtm_attribution]

/-- C4 (amended): the attribution score function returns exactly 0.7 if the
GTM load timestamp is absent and GTM was detected, 0.0 if absent and not
detected; otherwise with `delta = t - g`: 0.0 for `delta < 0`, 0.9 for
`0 ≤ delta ≤ 5`, 0.8 for `5 < delta ≤ 15`, 0.6 for `15 < delta ≤ 30`, and 0.3
for `delta > 30`.  The score always lies in `[0,1]`, and for fixed `g` it is
non-increasing in delta over the nonnegative-delta range (it is not
non-increasing across the sign change, per the counterexample). -/
theorem c4_attribution_score_cases :
    (∀ d t, calculate_gtm_attribution none d t = if d then 7/10 else 0) ∧
    (∀ g d t, t - g < 0 → calculate_gtm_attribution (some g) d t = 0) ∧
    (∀ g d t, 0 ≤ t - g → t - g ≤ 5 →
      calculate_gtm_attribution (some g) d t = 9/10) ∧
    (∀ g d t, 5 < t - g → t - g ≤ 15 →
      calculate_gtm_attribution (some g) d t = 8/10) ∧
    (∀ g d t, 15 < t - g → t - g ≤ 30 →
      calculate_gtm_attribution (some g) d t = 6/10) ∧
    (∀ g d t, 30 < t - g → calculate_gtm_attribution (some g) d t = 3/10) ∧
    (∀ gl d t, 0 ≤ calculate_gtm_attribution gl d t ∧
      calculate_gtm_attribution gl d t ≤ 1) ∧
    (∀ g d t₁ t₂, 0 ≤ t₁ - g → t₁ ≤ t₂ →
      calculate_gtm_attribution (some g) d t₂ ≤
        calculate_gtm_attribution (some g) d t₁) := by
  refine ⟨fun d t => rfl, ?_, ?_, ?_, ?_, ?_, ?_, ?_⟩
  · intro g d t h
    simp only [calculate_gtm_attribution, if_pos h]
  · intro g d t h0 h5
    simp only [calculate_gtm_attribution]
    rw [if_neg (not_lt.mpr h0), if_pos h5]
  · intro g d t h5 h15
    simp only [calculate_gtm_attribution]
    rw [if_neg (by linarith), if_neg (not_le.mpr h5), if_pos h15]
  · intro g d t h15 h30
    simp only [calculate_gtm_attribution]
    rw [if_neg (by linarith), if_neg (by linarith), if_neg (not_le.mpr h15),
      if_pos h30]
  · intro g d t h30
    simp only [calculate_gtm_attribution]
    rw [if_neg (by linarith), if_neg (by linarith), if_neg (by linarith),
      if_neg (not_le.mpr h30)]
  · intro gl d t
    unfold calculate_gtm_attribution
    constructor
    · cases gl <;> dsimp only <;> split_ifs <;> norm_num
    · cases gl <;> dsimp only <;> split_ifs <;> norm_num
  · intro g d t₁ t₂ h0 hle
    unfold calculate_gtm_attribution
    dsimp only
    split_ifs <;> first | rfl | linarith

/-- C4 witness: the amended theorem evaluated at concrete inputs. -/
theorem c4_attribution_score_cases_witness :
    calculate_gtm_attribution (some 0) true 3 = 9/10 ∧
    calculate_gtm_attribution (some 0) true 20 = 6/10 ∧
    calculate_gtm_attribution (some 0) true 20 ≤
      calculate_gtm_attribution (some 0) true 3 := by
  refine ⟨c4_attribution_score_cases.2.2.1 0 true 3 (by norm_num) (by norm_num),
    c4_attribution_score_cases.2.2.2.2.1 0 true 20 (by norm_num) (by norm_num),
    c4_attribution_score_cases.2.2.2.2.2.2.2 0 true 3 20 (by norm_num)
      (by norm_num)⟩

/-! ## Crawl/Session Orchestrator (`progress_manager.py`) -/

/-- The fixed 14-column checkpoint schema (`ProgressManager.csv_fieldnames`,
`progress_manager.py` lines 52-57). -/
def csv_fieldnames : List String :=
  ["url", "gtm_detected", "consent_mode", "gtm_events",
   "third_party_trackers", "third_party_domains_count",
   "third_party_domains_list",
   "trackerdb_patterns_count", "trackerdb_data_source",
   "status", "google_urls_count", "analysis_time", "timestamp", "raw_urls"]

/-- The mutable tracking fields of a `ProgressManager` instance
(`progress_manager.py` lines 43-47).  Python `set` becomes `Finset String`. -/
structure PMState where
  completed_urls : Finset String
  failed_urls : Finset String
  current_batch : Nat
  total_batches : Nat
  batch_size : Nat
deriving DecidableEq

/-- The tracking fields as the constructor initialises them. -/
def freshPMState : PMState := ⟨∅, ∅, 0, 0, 100⟩

/-- Inner `try` body of `ProgressManager._validate_csv` (lines 213-228):
`.error` models the `raise ValueError("CSV schema mismatch - cannot resume")`.
When the CSV file is missing the method recreates it via `_initialize_csv`
(modelled as succeeding).  The header comparison is Python's
`set(existing_headers) != set(self.csv_fieldnames)`. -/
def validate_csv_inner (csv_exists : Bool) (existing_headers : List String) :
    Except String Bool :=
  if ¬csv_exists then .ok true
  else if existing_headers.toFinset ≠ csv_fieldnames.toFinset then
    .error ("CSV schema mismatch - cannot resume")
  else .ok true

/-- `ProgressManager._validate_csv` as observed by callers: the method's own
`except Exception` block (lines 233-235) catches the `ValueError` it has just
raised and converts it into a plain `False` return value. -/
def validate_csv (csv_exists : Bool) (existing_headers : List String) : Bool :=
  match validate_csv_inner csv_exists existing_headers with
  | .ok b => b
  | .error _ => false

/-- The progress-record fields a resumed session loads
(`ProgressManager.load_progress`, lines 77-107). -/
structure StoredProgress where
  completed_urls : Finset String
  failed_urls : Finset String
  current_batch : Nat
  total_batches : Nat
  batch_size : Nat

/-- `ProgressManager.load_progress`: when a readable progress file exists its
fields overwrite the in-memory state and the call reports `True`; otherwise
the state is untouched and the call reports `False`. -/
def load_progress (stored : Option StoredProgress) (st : PMState) :
    PMState × Bool :=
  match stored with
  | some d => (⟨d.completed_urls, d.failed_urls, d.current_batch,
      d.total_batches, d.batch_size⟩, true)
  | none => (st, false)

/-- The fields of the dictionary `initialize_session` returns that the claims
mention. -/
structure SessionInfo where
  total_urls : Nat
  remaining_count : Nat
  total_batches : Nat
  current_batch : Nat
  batch_size : Nat
  resumed : Bool
  urls_to_process : List String

/-- Embedding of `ProgressManager.initialize_session` (lines 143-195).
`stored` models the progress file (present and parseable, or absent);
`csv_exists`/`existing_headers` model the checkpoint CSV on disk.  Mirrors
the source order: the caller's `batch_size` is assigned, `load_progress` may
overwrite it from the record, `total_batches` is computed from the local
`batch_size` argument, already completed or failed URLs are filtered out, and
the CSV is initialised (fresh) or validated (resume) with the boolean result
of `_validate_csv` discarded. -/
def initialize_session (stored : Option StoredProgress) (csv_exists : Bool)
    (existing_headers : List String) (st0 : PMState) (all_urls : List String)
    (batch_size : Nat) : PMState × SessionInfo :=
  let st1 := { st0 with batch_size := batch_size }
  let res := load_progress stored st1
  let st2 := res.1
  let resumed := res.2
  let st3 := { st2 with
    total_batches := (all_urls.length + batch_size - 1) / batch_size }
  let remaining_urls := all_urls.filter
    (fun u => decide (u ∉ st3.completed_urls ∧ u ∉ st3.failed_urls))
  let _csv_ok : Bool :=
    if resumed then validate_csv csv_exists existing_headers else true
  (st3,
   { total_urls := all_urls.length
     remaining_count := remaining_urls.length
     total_batches := st3.total_batches
     current_batch := st3.current_batch
     batch_size := st3.batch_size
     resumed := resumed
     urls_to_process := remaining_urls })

/-- The only field of an analysis-result dictionary that
`mark_batch_completed` inspects. -/
structure BatchResult where
  status : String

/-- Position `k` of the results list carries a result whose status is
`success`. -/
def successAt (res : List BatchResult) (k : Nat) : Prop :=
  ∃ r, res.get? k = some r ∧ r.status = "success"

instance (res : List BatchResult) (k : Nat) : Decidable (successAt res k) := by
  unfold successAt
  cases res.get? k with
  | none => exact isFalse (by simp)
  | some r => exact decidable_of_iff (r.status = "success") (by simp)

/-- The `for i, url in enumerate(batch_urls)` classification loop of
`mark_batch_completed` (lines 375-384): a URL whose positional result has
status `success` joins `completed_urls`; any other URL — including one with
no positional result — joins `failed_urls`. -/
def markUrls (res : List BatchResult) : Nat → List String → PMState → PMState
  | _, [], st => st
  | i, url :: rest, st =>
    let st' :=
      match res.get? i with
      | some r =>
        if r.status = "success" then
          { st with completed_urls := insert url st.completed_urls }
        else
          { st with failed_urls := insert url st.failed_urls }
      | none => { st with failed_urls := insert url st.failed_urls }
    markUrls res (i + 1) rest st'

/-- What a call to `mark_batch_completed` leaves behind. -/
structure BatchCommit where
  state : PMState
  ok : Bool
  progress_saved : Bool

/-- Embedding of `ProgressManager.mark_batch_completed` (lines 358-390).
`save_ok` models whether `save_batch_results` (the temp-file append to the
checkpoint CSV) succeeded: on failure the method returns `False` without
touching the URL sets; on success it classifies the batch URLs and then calls
`save_progress`. -/
def mark_batch_completed (st : PMState) (batch_urls : List String)
    (batch_results : List BatchResult) (save_ok : Bool) : BatchCommit :=
  if save_ok then
    { state := markUrls batch_results 0 batch_urls st
      ok := true
      progress_saved := true }
  else
    { state := st, ok := false, progress_saved := false }

/-- `ProgressManager.mark_completed` (lines 392-397): add to
`completed_urls`, remove from `failed_urls` when present. -/
def mark_completed (st : PMState) (url : String) : PMState :=
  { st with
    completed_urls := insert url st.completed_urls
    failed_urls := st.failed_urls.erase url }

/-- `ProgressManager.mark_failed` (lines 399-404): add to `failed_urls`,
remove from `completed_urls` when present. -/
def mark_failed (st : PMState) (url : String) : PMState :=
  { st with
    failed_urls := insert url st.failed_urls
    completed_urls := st.completed_urls.erase url }

/-- The `completion_percentage` written into the progress record by
`ProgressManager.save_progress` (line 128). -/
def save_progress_completion_percentage (st : PMState) : ℚ :=
  ((st.completed_urls.card + st.failed_urls.card : ℚ) /
    ((max 1 (st.total_batches * st.batch_size) : ℕ) : ℚ)) * 100

/-- The `completion_percentage` reported by
`ProgressManager.get_session_stats` (lines 425-428). -/
def get_session_stats_completion_percentage (st : PMState) : ℚ :=
  let total_processed := st.completed_urls.card + st.failed_urls.card
  let total_expected := st.total_batches * st.batch_size
  ((total_processed : ℚ) / ((max 1 total_expected : ℕ) : ℚ)) * 100

lemma exists_cons_shift (P : Nat → Prop) (url u : String) (rest : List String)
    (i : Nat) :
    (∃ j, (url :: rest).get? j = some u ∧ P (i + j)) ↔
      ((u = url ∧ P i) ∨ ∃ j, rest.get? j = some u ∧ P (i + 1 + j)) := by
  constructor
  · rintro ⟨j, hj, hp⟩
    cases j with
    | zero =>
      left
      simp only [List.get?_cons_zero, Option.some.injEq] at hj
      exact ⟨hj.symm, by simpa using hp⟩
    | succ j' =>
      right
      refine ⟨j', by simpa using hj, ?_⟩
      rw [show i + 1 + j' = i + (j' + 1) by omega]
      exact hp
  · rintro (⟨rfl, hp⟩ | ⟨j, hj, hp⟩)
    · exact ⟨0, by simp, by simpa using hp⟩
    · refine ⟨j + 1, by simpa using hj, ?_⟩
      rw [show i + (j + 1) = i + 1 + j by omega]
      exact hp

lemma markUrls_completed_mem (res : List BatchResult) :
    ∀ (urls : List String) (i : Nat) (st : PMState) (u : String),
      u ∈ (markUrls res i urls st).completed_urls ↔
        u ∈ st.completed_urls ∨
          ∃ j, urls.get? j = some u ∧ successAt res (i + j) := by
  intro urls
  induction urls with
  | nil => intro i st u; simp [markUrls]
  | cons url rest ih =>
    intro i st u
    rw [markUrls, exists_cons_shift]
    cases hres : res.get? i with
    | some r =>
      by_cases hstat : r.status = "success"
      · have hPi : successAt res i := ⟨r, hres, hstat⟩
        simp only [hres, if_pos hstat]
        rw [ih]
        simp only [Finset.mem_insert]
        tauto
      · have hPi : ¬ successAt res i := by
          rintro ⟨r', hr', hs'⟩
          rw [hres] at hr'
          have hrr := Option.some.inj hr'
          rw [← hrr] at hs'
          exact hstat hs'
        simp only [hres, if_neg hstat]
        rw [ih]
        tauto
    | none =>
      have hPi : ¬ successAt res i := by
        rintro ⟨r', hr', _⟩
        rw [hres] at hr'
        exact Option.noConfusion hr'
      simp only [hres]
      rw [ih]
      tauto

lemma markUrls_failed_mem (res : List BatchResult) :
    ∀ (urls : List String) (i : Nat) (st : PMState) (u : String),
      u ∈ (markUrls res i urls st).failed_urls ↔
        u ∈ st.failed_urls ∨
          ∃ j, urls.get? j = some u ∧ ¬ successAt res (i + j) := by
  intro urls
  induction urls with
  | nil => intro i st u; simp [markUrls]
  | cons url rest ih =>
    intro i st u
    rw [markUrls, exists_cons_shift (fun n => ¬ successAt res n)]
    cases hres : res.get? i with
    | some r =>
      by_cases hstat : r.status = "success"
      · have hPi : successAt res i := ⟨r, hres, hstat⟩
        simp only [hres, if_pos hstat]
        rw [ih]
        tauto
      · have hPi : ¬ successAt res i := by
          rintro ⟨r', hr', hs'⟩
          rw [hres] at hr'
          have hrr := Option.some.inj hr'
          rw [← hrr] at hs'
          exact hstat hs'
        simp only [hres, if_neg hstat]
        rw [ih]
        simp only [Finset.mem_insert]
        tauto
    | none =>
      have hPi : ¬ successAt res i := by
        rintro ⟨r', hr', _⟩
        rw [hres] at hr'
        exact Option.noConfusion hr'
      simp only [hres]
      rw [ih]
      simp only [Finset.mem_insert]
      tauto

/-- C2: `mark_batch_completed` with a failed CSV append returns failure and
leaves the state unmodified; with a successful append it reports success,
adds exactly the batch URLs whose positionally matched result has status
`success` to `completedUrls`, adds every other batch URL (including those
with no result) to `failedUrls`, and persists the progress record. -/
theorem c2_mark_batch_completed_contract (st : PMState)
    (batch_urls : List String) (batch_results : List BatchResult) :
    (mark_batch_completed st batch_urls batch_results false =
      ⟨st, false, false⟩) ∧
    (mark_batch_completed st batch_urls batch_results true).ok = true ∧
    (mark_batch_completed st batch_urls batch_results true).progress_saved
      = true ∧
    (∀ u,
      u ∈ (mark_batch_completed st batch_urls batch_results
            true).state.completed_urls ↔
        u ∈ st.completed_urls ∨
          ∃ j, batch_urls.get? j = some u ∧ successAt batch_results j) ∧
    (∀ u,
      u ∈ (mark_batch_completed st batch_urls batch_results
            true).state.failed_urls ↔
        u ∈ st.failed_urls ∨
          ∃ j, batch_urls.get? j = some u ∧ ¬ successAt batch_results j) := by
  refine ⟨rfl, rfl, rfl, ?_, ?_⟩
  · intro u
    simpa using markUrls_completed_mem batch_results batch_urls 0 st u
  · intro u
    simpa using markUrls_failed_mem batch_results batch_urls 0 st u

/-- C7 counterexample: starting from the fresh (disjoint) state, a single
`mark_batch_completed` call whose batch list contains the same URL twice —
once positionally matched to a `success` result and once to an `error`
result — leaves the URL in both `completedUrls` and `failedUrls`, so the
disjointness invariant does not hold after every commitBatch operation. -/
theorem c7_disjointness_counterexample :
    ("https://dup.example" ∈ (mark_batch_completed freshPMState
        ["https://dup.example", "https://dup.example"]
        [⟨"success"⟩, ⟨"error"⟩] true).state.completed_urls) ∧
    ("https://dup.example" ∈ (mark_batch_completed freshPMState
        ["https://dup.example", "https://dup.example"]
        [⟨"success"⟩, ⟨"error"⟩] true).state.failed_urls) ∧
    ¬ Disjoint
        (mark_batch_completed freshPMState
          ["https://dup.example", "https://dup.example"]
          [⟨"success"⟩, ⟨"error"⟩] true).state.completed_urls
        (mark_batch_completed freshPMState
          ["https://dup.example", "https://dup.example"]
          [⟨"success"⟩, ⟨"error"⟩] true).state.failed_urls := by
  refine ⟨by decide, by decide, ?_⟩
  rw [Finset.not_disjoint_iff]
  exact ⟨"https://dup.example", by decide, by decide⟩

/-- C7 (amended): `completedUrls ∩ failedUrls = ∅` is preserved by every
explicit `mark_completed` and `mark_failed` transition unconditionally, and
by `mark_batch_completed` provided the batch URLs are pairwise distinct and
none of them is already in either set (which holds when batches are drawn
from the remaining-URL list); with a duplicated batch URL of differing
status, or a batch URL already in the opposite set, `mark_batch_completed`
can violate it (see the counterexample). -/
theorem c7_disjointness_amended :
    (∀ st url, Disjoint st.completed_urls st.failed_urls →
      Disjoint (mark_completed st url).completed_urls
        (mark_completed st url).failed_urls) ∧
    (∀ st url, Disjoint st.completed_urls st.failed_urls →
      Disjoint (mark_failed st url).completed_urls
        (mark_failed st url).failed_urls) ∧
    (∀ st batch_urls batch_results,
      Disjoint st.completed_urls st.failed_urls →
      batch_urls.Nodup →
      (∀ u ∈ batch_urls, u ∉ st.completed_urls ∧ u ∉ st.failed_urls) →
      Disjoint
        (mark_batch_completed st batch_urls batch_results
          true).state.completed_urls
        (mark_batch_completed st batch_urls batch_results
          true).state.failed_urls) := by
  refine ⟨?_, ?_, ?_⟩
  · intro st url hdisj
    rw [Finset.disjoint_left]
    intro a ha hb
    simp only [mark_completed, Finset.mem_insert] at ha hb
    rcases ha with rfl | ha
    · exact Finset.not_mem_erase a _ hb
    · exact (Finset.disjoint_left.mp hdisj ha) (Finset.mem_of_mem_erase hb)
  · intro st url hdisj
    rw [Finset.disjoint_left]
    intro a ha hb
    simp only [mark_failed, Finset.mem_insert] at ha hb
    rcases hb with rfl | hb
    · exact Finset.not_mem_erase a _ ha
    · exact (Finset.disjoint_left.mp hdisj (Finset.mem_of_mem_erase ha)) hb
  · intro st batch_urls batch_results hdisj hnodup hfresh
    rw [Finset.disjoint_left]
    intro u hc hf
    have hc' := (markUrls_completed_mem batch_results batch_urls 0 st u).mp hc
    have hf' := (markUrls_failed_mem batch_results batch_urls 0 st u).mp hf
    rcases hc' with hc' | ⟨j, hj, hsj⟩
    · rcases hf' with hf' | ⟨j, hj, _⟩
      · exact (Finset.disjoint_left.mp hdisj hc') hf'
      · exact (hfresh u (List.get?_mem hj)).1 hc'
    · rcases hf' with hf' | ⟨j', hj', hsj'⟩
      · exact (hfresh u (List.get?_mem hj)).2 hf'
      · have hlt : j < batch_urls.length := by
          rcases List.get?_eq_some.mp hj with ⟨h, _⟩
          exact h
        have : j = j' := List.get?_inj hlt hnodup (hj.trans hj'.symm)
        rw [← this] at hsj'
        rw [Nat.zero_add] at hsj hsj'
        exact hsj' hsj

/-- C7 witness: the amended preservation applied to a concrete session. -/
theorem c7_disjointness_amended_witness :
    Disjoint
      (mark_batch_completed freshPMState ["https://w.example"]
        [⟨"success"⟩] true).state.completed_urls
      (mark_batch_completed freshPMState ["https://w.example"]
        [⟨"success"⟩] true).state.failed_urls :=
  c7_disjointness_amended.2.2 freshPMState ["https://w.example"]
    [⟨"success"⟩] (by decide) (by decide) (by decide)

lemma nat_ceil_div_cast (n bs : ℕ) (h : 0 < bs) :
    (((n + bs - 1) / bs : ℕ) : ℤ) = ⌈(n : ℚ) / (bs : ℚ)⌉ := by
  have hm := Nat.div_add_mod (n + bs - 1) bs
  have hr : (n + bs - 1) % bs < bs := Nat.mod_lt _ h
  set q := (n + bs - 1) / bs with hqdef
  have h1 : n ≤ bs * q := by
    rcases Nat.eq_zero_or_pos n with rfl | hn
    · exact Nat.zero_le _
    · omega
  have h2 : bs * q < n + bs := by omega
  have hbq : (0 : ℚ) < (bs : ℚ) := by exact_mod_cast h
  rw [eq_comm, Int.ceil_eq_iff]
  have h1q : (n : ℚ) ≤ (bs : ℚ) * (q : ℚ) := by exact_mod_cast h1
  have h2q : (bs : ℚ) * (q : ℚ) < (n : ℚ) + (bs : ℚ) := by exact_mod_cast h2
  constructor
  · have hlt : ((q : ℚ) - 1) < (n : ℚ) / (bs : ℚ) := by
      rw [lt_div_iff₀ hbq]
      nlinarith
    push_cast
    linarith
  · have hle : (n : ℚ) / (bs : ℚ) ≤ (q : ℚ) := by
      rw [div_le_iff₀ hbq]
      nlinarith
    push_cast
    linarith

/-- C6: `initialize_session` computes `totalBatches` as the ceiling of
`len(allUrls) / batchSize` over the caller-supplied `batchSize`; the returned
work list is exactly the sublist of `allUrls` whose members are in neither
`completedUrls` nor `failedUrls` (order preserved, nothing duplicated or
dropped, so re-running after a partial commit again yields
`allUrls − completedUrls − failedUrls`); and on resume every field stored in
the progress record — in particular `batchSize` — wins over the caller's
argument and the constructor state. -/
theorem c6_initialize_session_contract (stored : Option StoredProgress)
    (csv_exists : Bool) (headers : List String) (st0 : PMState)
    (all_urls : List String) (bs : ℕ) (hbs : 0 < bs) :
    (((initialize_session stored csv_exists headers st0 all_urls
        bs).2.total_batches : ℤ)
      = ⌈(all_urls.length : ℚ) / (bs : ℚ)⌉) ∧
    (∀ u, u ∈ (initialize_session stored csv_exists headers st0 all_urls
        bs).2.urls_to_process ↔
      u ∈ all_urls ∧
      u ∉ (initialize_session stored csv_exists headers st0 all_urls
        bs).1.completed_urls ∧
      u ∉ (initialize_session stored csv_exists headers st0 all_urls
        bs).1.failed_urls) ∧
    (initialize_session stored csv_exists headers st0 all_urls
      bs).2.urls_to_process.Sublist all_urls ∧
    (all_urls.Nodup → (initialize_session stored csv_exists headers st0
      all_urls bs).2.urls_to_process.Nodup) ∧
    (∀ d, stored = some d →
      (initialize_session stored csv_exists headers st0 all_urls
        bs).1.batch_size = d.batch_size ∧
      (initialize_session stored csv_exists headers st0 all_urls
        bs).2.batch_size = d.batch_size ∧
      (initialize_session stored csv_exists headers st0 all_urls
        bs).1.completed_urls = d.completed_urls ∧
      (initialize_session stored csv_exists headers st0 all_urls
        bs).1.failed_urls = d.failed_urls ∧
      (initialize_session stored csv_exists headers st0 all_urls
        bs).2.resumed = true) := by
  refine ⟨?_, ?_, ?_, ?_, ?_⟩
  · have : (initialize_session stored csv_exists headers st0 all_urls
        bs).2.total_batches = (all_urls.length + bs - 1) / bs := by
      cases stored <;> rfl
    rw [this]
    exact nat_ceil_div_cast all_urls.length bs hbs
  · intro u
    have : (initialize_session stored csv_exists headers st0 all_urls
        bs).2.urls_to_process = all_urls.filter (fun u =>
          decide (u ∉ (initialize_session stored csv_exists headers st0
            all_urls bs).1.completed_urls ∧
            u ∉ (initialize_session stored csv_exists headers st0 all_urls
              bs).1.failed_urls)) := by
      cases stored <;> rfl
    rw [this, List.mem_filter]
    simp only [decide_eq_true_eq]
  · have : (initialize_session stored csv_exists headers st0 all_urls
        bs).2.urls_to_process = all_urls.filter (fun u =>
          decide (u ∉ (initialize_session stored csv_exists headers st0
            all_urls bs).1.completed_urls ∧
            u ∉ (initialize_session stored csv_exists headers st0 all_urls
              bs).1.failed_urls)) := by
      cases stored <;> rfl
    rw [this]
    exact List.filter_sublist _
  · intro hnd
    have : (initialize_session stored csv_exists headers st0 all_urls
        bs).2.urls_to_process = all_urls.filter (fun u =>
          decide (u ∉ (initialize_session stored csv_exists headers st0
            all_urls bs).1.completed_urls ∧
            u ∉ (initialize_session stored csv_exists headers st0 all_urls
              bs).1.failed_urls)) := by
      cases stored <;> rfl
    rw [this]
    exact hnd.filter _
  · rintro d rfl
    exact ⟨rfl, rfl, rfl, rfl, rfl⟩

/-- C6 witness: resuming with a stored record (batch size 50, one URL already
completed) over a two-URL list and caller batch size 100. -/
theorem c6_initialize_session_contract_witness :
    ("https://todo.example" ∈ (initialize_session
        (some ⟨{"https://done.example"}, ∅, 1, 1, 50⟩) true csv_fieldnames
        freshPMState ["https://done.example", "https://todo.example"]
        100).2.urls_to_process) ∧
    (initialize_session (some ⟨{"https://done.example"}, ∅, 1, 1, 50⟩) true
      csv_fieldnames freshPMState
      ["https://done.example", "https://todo.example"] 100).2.batch_size
      = 50 := by
  have h := c6_initialize_session_contract
    (some ⟨{"https://done.example"}, ∅, 1, 1, 50⟩) true csv_fieldnames
    freshPMState ["https://done.example", "https://todo.example"] 100
    (by norm_num)
  exact ⟨(h.2.1 ("https://todo.example")).mpr
      ⟨by decide, by decide, by decide⟩,
    (h.2.2.2.2 _ rfl).2.1⟩

/-- C10: the completion percentage persisted by `save_progress` and the one
reported by `get_session_stats` are the same quantity,
`(|completed| + |failed|) / max(1, totalBatches * batchSize) * 100`; and
because the denominator is the batch grid rather than the URL count, a run
whose URL total is not a multiple of the batch size reports strictly less
than 100 percent even once every URL is processed. -/
theorem c10_completion_percentage (st : PMState) (n bs : ℕ) :
    (∀ s : PMState, save_progress_completion_percentage s =
      get_session_stats_completion_percentage s) ∧
    (∀ s : PMState, get_session_stats_completion_percentage s =
      ((s.completed_urls.card + s.failed_urls.card : ℚ) /
        ((max 1 (s.total_batches * s.batch_size) : ℕ) : ℚ)) * 100) ∧
    (0 < bs → 0 < n → ¬ bs ∣ n →
      st.total_batches = (n + bs - 1) / bs →
      st.batch_size = bs →
      st.completed_urls.card + st.failed_urls.card = n →
      get_session_stats_completion_percentage st < 100) := by
  refine ⟨?_, ?_, ?_⟩
  · intro s
    unfold save_progress_completion_percentage
      get_session_stats_completion_percentage
    push_cast
    ring
  · intro s
    unfold get_session_stats_completion_percentage
    push_cast
    ring
  intro hbs hn hndvd htb hbsz hcard
  have hm := Nat.div_add_mod (n + bs - 1) bs
  have hr : (n + bs - 1) % bs < bs := Nat.mod_lt _ hbs
  set q := (n + bs - 1) / bs with hq
  have h1 : n ≤ bs * q := by omega
  have hne : n ≠ bs * q := fun he => hndvd ⟨q, he⟩
  have h2 : n < bs * q := lt_of_le_of_ne h1 hne
  have hexp : st.total_batches * st.batch_size = q * bs := by
    rw [htb, hbsz]
  have h2' : n < st.total_batches * st.batch_size := by
    rw [hexp, Nat.mul_comm]
    exact h2
  have hmax : max 1 (st.total_batches * st.batch_size) =
      st.total_batches * st.batch_size := by omega
  have hTpos : (0 : ℚ) <
      ((max 1 (st.total_batches * st.batch_size) : ℕ) : ℚ) := by
    have : 0 < max 1 (st.total_batches * st.batch_size) := by omega
    exact_mod_cast this
  have hfrac : (((st.completed_urls.card + st.failed_urls.card : ℕ) : ℚ) /
      ((max 1 (st.total_batches * st.batch_size) : ℕ) : ℚ)) < 1 := by
    rw [div_lt_one hTpos]
    have : st.completed_urls.card + st.failed_urls.card <
        max 1 (st.total_batches * st.batch_size) := by omega
    exact_mod_cast this
  have hdef : get_session_stats_completion_percentage st =
      (((st.completed_urls.card + st.failed_urls.card : ℕ) : ℚ) /
        ((max 1 (st.total_batches * st.batch_size) : ℕ) : ℚ)) * 100 := rfl
  rw [hdef]
  linarith [hfrac]

/-- C10 witness: 5 processed URLs, batch size 2, three batches: the reported
completion percentage is strictly below 100. -/
theorem c10_completion_percentage_witness :
    get_session_stats_completion_percentage
      ⟨{"a", "b", "c"}, {"d", "e"}, 3, 3, 2⟩ < 100 :=
  (c10_completion_percentage ⟨{"a", "b", "c"}, {"d", "e"}, 3, 3, 2⟩ 5 2).2.2
    (by norm_num) (by norm_num) (by decide) (by decide) (by decide)
    (by decide)

/-- C1: the schema-mismatch guard is not fatal.  On a resumed session whose
existing checkpoint CSV header lacks the `raw_urls` column,
`_validate_csv`'s inner body does raise the intended
`"CSV schema mismatch - cannot resume"` error, but the method's own blanket
`except` swallows it and returns `False`; `initialize_session` discards that
boolean, returns normally, and hands the full URL list to batch processing —
contradicting the claim that the operation fails fast before any batch is
processed. -/
theorem c1_schema_mismatch_swallowed :
    validate_csv_inner true (csv_fieldnames.take 13) =
      .error ("CSV schema mismatch - cannot resume") ∧
    validate_csv true (csv_fieldnames.take 13) = false ∧
    (initialize_session (some ⟨∅, ∅, 0, 0, 100⟩) true (csv_fieldnames.take 13)
      freshPMState ["https://a.example", "https://b.example"]
      100).2.resumed = true ∧
    (initialize_session (some ⟨∅, ∅, 0, 0, 100⟩) true (csv_fieldnames.take 13)
      freshPMState ["https://a.example", "https://b.example"]
      100).2.urls_to_process =
      ["https://a.example", "https://b.example"] := by
  refine ⟨?_, ?_, rfl, by decide⟩
  · rfl
  · rfl

/-! ## TrackerDB Provider source chain (`GhosteryTrackerDB.load_tracker_data`) -/

/-- The file-system / network facts `load_tracker_data` consults: whether the
cache file exists and its wall-clock age, whether its JSON parses, whether
the GitHub-releases fetch succeeds end to end, and whether a usable local
zip archive is found and parses. -/
structure ProviderEnv where
  cache_file_exists : Bool
  cache_age_seconds : ℚ
  cache_parses : Bool
  remote_release_ok : Bool
  local_zip_ok : Bool

/-- Where a successful load got its data from. -/
inductive TrackerSource where
  | cache
  | remote
  | expired_cache
  | local_zip
deriving DecidableEq

/-- Everything observable about one `load_tracker_data` call. -/
structure LoadOutcome where
  success : Bool
  source : Option TrackerSource
  cache_deleted : Bool
  cache_overwritten : Bool
deriving DecidableEq

/-- `self.cache_duration = 24 * 60 * 60` (seconds). -/
def cache_duration : ℚ := 24 * 60 * 60

/-- `self.cache_cleanup_duration = 7 * 24 * 60 * 60` (seconds). -/
def cache_cleanup_duration : ℚ := 7 * 24 * 60 * 60

/-- `GhosteryTrackerDB._is_cache_valid` (lines 72-91): the cache file exists
and its age is strictly below 24 hours. -/
def is_cache_valid (e : ProviderEnv) : Bool :=
  e.cache_file_exists && decide (e.cache_age_seconds < cache_duration)

/-- `GhosteryTrackerDB._is_cache_too_old` (lines 93-110): the cache file
exists and its age strictly exceeds 7 days. -/
def is_cache_too_old (e : ProviderEnv) : Bool :=
  e.cache_file_exists && decide (e.cache_age_seconds > cache_cleanup_duration)

/-- `GhosteryTrackerDB._load_from_cache` (lines 171-186): succeeds when the
cache file exists and parses. -/
def load_from_cache (e : ProviderEnv) : Bool :=
  e.cache_file_exists && e.cache_parses

/-- Embedding of `GhosteryTrackerDB.load_tracker_data` (lines 121-169),
mirroring its early-return control flow.  A successful GitHub-releases load
rewrites the cache file (`cache_overwritten`); when the download fails and
the cache is older than a week, the cache file is deleted and the
expired-cache retry is skipped. -/
def load_tracker_data (e : ProviderEnv) : LoadOutcome :=
  if is_cache_valid e && load_from_cache e then
    ⟨true, some .cache, false, false⟩
  else if e.remote_release_ok then
    ⟨true, some .remote, false, true⟩
  else if is_cache_too_old e then
    if e.local_zip_ok then ⟨true, some .local_zip, true, false⟩
    else ⟨false, none, true, false⟩
  else if load_from_cache e then
    ⟨true, some .expired_cache, false, false⟩
  else if e.local_zip_ok then
    ⟨true, some .local_zip, false, false⟩
  else
    ⟨false, none, false, false⟩

/-- Modelled from the specification's words (§4.1 resolution order), for
comparison with `load_tracker_data`: (1) a cached snapshot strictly younger
than 24 hours that loads; (2) the remote release lookup, overwriting the
cache on success; (3) on remote failure with a cache older than 7 days,
delete the cache and skip the expired-cache step; (4) otherwise reuse the
expired-but-not-stale cache; (5) the local archive fallback; (6) otherwise
fail with no source and nothing synthesized. -/
def spec_load_resolution (e : ProviderEnv) : LoadOutcome :=
  if e.cache_file_exists = true ∧ e.cache_age_seconds < 24 * 60 * 60 ∧
      e.cache_parses = true then
    ⟨true, some .cache, false, false⟩
  else if e.remote_release_ok = true then
    ⟨true, some .remote, false, true⟩
  else if e.cache_file_exists = true ∧
      e.cache_age_seconds > 7 * 24 * 60 * 60 then
    if e.local_zip_ok = true then ⟨true, some .local_zip, true, false⟩
    else ⟨false, none, true, false⟩
  else if e.cache_file_exists = true ∧ e.cache_parses = true then
    ⟨true, some .expired_cache, false, false⟩
  else if e.local_zip_ok = true then
    ⟨true, some .local_zip, false, false⟩
  else
    ⟨false, none, false, false⟩

/-- C5: the provider's source chain follows exactly the specified resolution
order with its short-circuiting, cache-overwrite, stale-cache deletion and
expired-cache reuse behavior, and a fully failed load reports no source at
all — no placeholder pattern set is synthesized. -/
theorem c5_load_resolution_order (e : ProviderEnv) :
    load_tracker_data e = spec_load_resolution e ∧
    ((load_tracker_data e).success = false →
      (load_tracker_data e).source = none) := by
  constructor
  · unfold load_tracker_data spec_load_resolution is_cache_valid
      is_cache_too_old load_from_cache cache_duration cache_cleanup_duration
    cases hce : e.cache_file_exists <;>
      cases hcp : e.cache_parses <;>
      cases hro : e.remote_release_ok <;>
      cases hlz : e.local_zip_ok <;>
      by_cases hfresh : e.cache_age_seconds < 24 * 60 * 60 <;>
      by_cases hstale : e.cache_age_seconds > 7 * 24 * 60 * 60 <;>
      simp_all
  · unfold load_tracker_data
    split_ifs <;> simp

/-- C5 witness: with no cache, no remote and no archive, the load fails and
reports no source. -/
theorem c5_load_resolution_order_witness :
    (load_tracker_data ⟨false, 0, false, false, false⟩).source = none ∧
    load_tracker_data ⟨false, 0, false, false, false⟩ =
      spec_load_resolution ⟨false, 0, false, false, false⟩ :=
  ⟨(c5_load_resolution_order ⟨false, 0, false, false, false⟩).2 rfl,
    (c5_load_resolution_order ⟨false, 0, false, false, false⟩).1⟩

/-! ## Detection Engine result construction (`StealthDetector`) -/

/-- A field that is either a real value or the `'not_applicable'` sentinel. -/
inductive FieldNA (α : Type) where
  | not_applicable : FieldNA α
  | value : α → FieldNA α
deriving DecidableEq

/-- The result record `analyze_website` produces (`simple_detector.py`
lines 587-601 and the timeout/error constructors). -/
structure DetectionResult where
  url : String
  timestamp : ℚ
  gtm_detected : Bool
  consent_mode : Bool
  gtm_events : FieldNA (List String)
  third_party_trackers : FieldNA (List String)
  third_party_domains_list : FieldNA (List String)
  third_party_domains_count : Nat
  trackerdb_patterns_count : Nat
  trackerdb_data_source : String
  status : String
  google_urls_count : Nat
  analysis_time : ℚ
  raw_urls : List String
  error : Option String
deriving DecidableEq

/-- The GTM-specific URL substrings of `StealthDetector._detect_gtm`
(lines 744-750). -/
def gtm_patterns : List String :=
  ["googletagmanager.com", "gtm.js", "gtag/js", "/gtm?id=", "gtm-"]

/-- `StealthDetector._detect_gtm` (lines 742-759): some collected URL,
lower-cased, contains one of the GTM substrings. -/
def detect_gtm (google_urls : List String) : Bool :=
  google_urls.any (fun url =>
    gtm_patterns.any (fun p => strContainsSub (strLower url) p))

/-- The consent-signaling substrings of `StealthDetector._detect_consent_mode`
(lines 763-767). -/
def consent_patterns : List String :=
  ["&gcs=", "&consent=", "&gcd=", "&npa=", "&pscdl=",
   "consent%3d", "gcs%3d", "gcd%3d", "npa%3d", "pscdl%3d",
   "consent_state", "analytics_storage", "ad_storage"]

/-- `StealthDetector._detect_consent_mode` (lines 761-776). -/
def detect_consent_mode (google_urls : List String) : Bool :=
  google_urls.any (fun url =>
    consent_patterns.any (fun p => strContainsSub (strLower url) p))

/-- How one `analyze_website` call played out: the page loaded and the listed
signals were collected, or navigation timed out after retry, or an
unrecoverable exception surfaced. -/
inductive PageOutcome where
  | loaded (google_urls : List String) (gtm_events : List String)
      (trackers : List String) (domains : List String)
  | navigation_timeout
  | analysis_error (msg : String)

/-- `StealthDetector._create_timeout_result` (lines 937-954). -/
def create_timeout_result (url : String) (start_time now : ℚ)
    (db_count : Nat) (db_source : String) : DetectionResult :=
  { url := url
    timestamp := now
    gtm_detected := false
    consent_mode := false
    gtm_events := .not_applicable
    third_party_trackers := .not_applicable
    third_party_domains_list := .not_applicable
    third_party_domains_count := 0
    trackerdb_patterns_count := db_count
    trackerdb_data_source := db_source
    status := "timeout"
    google_urls_count := 0
    analysis_time := now - start_time
    raw_urls := []
    error := some ("Page load timeout") }

/-- `StealthDetector._create_error_result` (lines 956-973). -/
def create_error_result (url : String) (msg : String) (start_time now : ℚ)
    (db_count : Nat) (db_source : String) : DetectionResult :=
  { url := url
    timestamp := now
    gtm_detected := false
    consent_mode := false
    gtm_events := .not_applicable
    third_party_trackers := .not_applicable
    third_party_domains_list := .not_applicable
    third_party_domains_count := 0
    trackerdb_patterns_count := db_count
    trackerdb_data_source := db_source
    status := "error"
    google_urls_count := 0
    analysis_time := now - start_time
    raw_urls := []
    error := some msg }

/-- Embedding of `StealthDetector.analyze_website` (lines 515-608) as a
function of how the page interaction went.  On the loaded path the
sub-analyses (consent mode, events, trackers, domains) are computed only
when GTM is detected, and every rich field is replaced by the
`not_applicable` sentinel when it is not (lines 567-601); timeout and error
paths return the corresponding fixed result records. -/
def analyze_website (url : String) (start_time now : ℚ) (db_count : Nat)
    (db_source : String) : PageOutcome → DetectionResult
  | .loaded google_urls gtm_events trackers domains =>
    let gtm := detect_gtm google_urls
    { url := url
      timestamp := now
      gtm_detected := gtm
      consent_mode := if gtm then detect_consent_mode google_urls else false
      gtm_events := if gtm then .value gtm_events else .not_applicable
      third_party_trackers := if gtm then .value trackers
        else .not_applicable
      third_party_domains_list := if gtm then .value domains
        else .not_applicable
      third_party_domains_count := if gtm then domains.length else 0
      trackerdb_patterns_count := db_count
      trackerdb_data_source := db_source
      status := "success"
      google_urls_count := google_urls.length
      analysis_time := now - start_time
      raw_urls := google_urls
      error := none }
  | .navigation_timeout => create_timeout_result url start_time now db_count
      db_source
  | .analysis_error msg => create_error_result url msg start_time now
      db_count db_source

/-- C3: every `DetectionResult` coming out of `analyze_website` — the loaded
path as well as the timeout and error constructors — with
`gtm_detected = false` carries the `not_applicable` sentinel in
`gtm_events`, `third_party_trackers` and `third_party_domains_list`. -/
theorem c3_not_applicable_gating (url : String) (start_time now : ℚ)
    (db_count : Nat) (db_source : String) (o : PageOutcome)
    (h : (analyze_website url start_time now db_count
      db_source o).gtm_detected = false) :
    (analyze_website url start_time now db_count
      db_source o).gtm_events = .not_applicable ∧
    (analyze_website url start_time now db_count
      db_source o).third_party_trackers = .not_applicable ∧
    (analyze_website url start_time now db_count
      db_source o).third_party_domains_list = .not_applicable := by
  cases o with
  | loaded g e t d =>
    simp only [analyze_website] at h ⊢
    rw [h]
    exact ⟨rfl, rfl, rfl⟩
  | navigation_timeout => exact ⟨rfl, rfl, rfl⟩
  | analysis_error msg => exact ⟨rfl, rfl, rfl⟩

/-- C3 witness: a timed-out analysis of a concrete URL has
`gtm_detected = false` and all rich fields `not_applicable`. -/
theorem c3_not_applicable_gating_witness :
    (analyze_website ("https://w3.example") 0 1 0 ("none")
      .navigation_timeout).gtm_events = .not_applicable ∧
    (analyze_website ("https://w3.example") 0 1 0 ("none")
      .navigation_timeout).third_party_trackers = .not_applicable ∧
    (analyze_website ("https://w3.example") 0 1 0 ("none")
      .navigation_timeout).third_party_domains_list = .not_applicable :=
  c3_not_applicable_gating ("https://w3.example") 0 1 0 ("none")
    .navigation_timeout rfl

/-! ## TrackerDB parsing and domain index (`GhosteryTrackerDB`) -/

/-- One declared pattern entry of the TrackerDB JSON, as
`_build_lookup_tables` reads it: optional metadata with defaults, and the
declared domain list (a single-string `domains` value is normalised to a
one-element list by lines 383-385). -/
structure TrackerPattern where
  name : Option String
  category : Option String
  organization : Option String
  domains : List String
deriving DecidableEq

/-- The per-pattern record stored in `tracker_data['tracker_info']`
(lines 387-395).  The `website_url` field is carried by the code but read by
nothing the claims mention. -/
structure TrackerInfo where
  name : String
  category : String
  organization : String
  domains : List String
  pattern_key : String
deriving DecidableEq

/-- Lines 388-395: metadata defaults applied when building `tracker_info`. -/
def tracker_info_of (pattern_key : String) (pd : TrackerPattern) :
    TrackerInfo :=
  { name := pd.name.getD pattern_key
    category := pd.category.getD ("unknown")
    organization := pd.organization.getD ("unknown")
    domains := pd.domains
    pattern_key := pattern_key }

/-- Python dict assignment `m[k] = v`: overwrite in place when the key is
present, append otherwise. -/
def upsert {β : Type} (m : List (String × β)) (k : String) (v : β) :
    List (String × β) :=
  if m.any (fun p => p.1 == k) then
    m.map (fun p => if p.1 == k then (k, v) else p)
  else m ++ [(k, v)]

/-- The `domain_patterns` table built by
`GhosteryTrackerDB._build_lookup_tables` (lines 369-413): iterate the
patterns in declaration order, and for every nonempty declared domain assign
`domain_patterns[domain.lower()] = pattern_key`. -/
def build_domain_patterns (patterns : List (String × TrackerPattern)) :
    List (String × String) :=
  patterns.foldl
    (fun m pk => pk.2.domains.foldl
      (fun m d => if d ≠ "" then upsert m (strLower d) pk.1 else m) m)
    []

/-- The `tracker_info` table built by the same loop. -/
def build_tracker_info (patterns : List (String × TrackerPattern)) :
    List (String × TrackerInfo) :=
  patterns.foldl (fun m pk => upsert m pk.1 (tracker_info_of pk.1 pk.2)) []

/-- All `(declared domain, pattern key)` registrations in processing
order. -/
def registrations (patterns : List (String × TrackerPattern)) :
    List (String × String) :=
  patterns.flatMap (fun pk => pk.2.domains.map (fun d => (d, pk.1)))

/-- One registration step of the `_build_lookup_tables` inner loop. -/
def regStep (m : List (String × String)) (r : String × String) :
    List (String × String) :=
  if r.1 ≠ "" then upsert m (strLower r.1) r.2 else m

/-- Folding all registrations over an existing table. -/
def regFold (regs : List (String × String)) (m : List (String × String)) :
    List (String × String) :=
  regs.foldl regStep m

/-- Does registration `p` claim index key `k`? (nonempty domain whose
case-folded form is `k`) -/
def regMatches (k : String) (p : String × String) : Bool :=
  decide (p.1 ≠ "") && decide (strLower p.1 = k)

lemma lookup_upsert_self {β : Type} (m : List (String × β)) (k : String)
    (v : β) : (upsert m k v).lookup k = some v := by
  induction m with
  | nil => simp [upsert, List.lookup]
  | cons p rest ih =>
    by_cases hpk : p.1 = k
    · have hb : (p.1 == k) = true := beq_iff_eq.mpr hpk
      simp [upsert, List.any_cons, hb, List.lookup, hpk]
    · have hb : (p.1 == k) = false := beq_eq_false_iff_ne.mpr hpk
      have hk' : (k == p.1) = false :=
        beq_eq_false_iff_ne.mpr (fun h => hpk h.symm)
      cases hany : (rest.any fun q => q.1 == k) with
      | true =>
        have hstep : upsert (p :: rest) k v = p :: upsert rest k v := by
          simp [upsert, List.any_cons, hb, hany, hpk]
        rw [hstep, List.lookup, hk']
        exact ih
      | false =>
        have hstep : upsert (p :: rest) k v = p :: upsert rest k v := by
          simp [upsert, List.any_cons, hb, hany, hpk]
        rw [hstep, List.lookup, hk']
        exact ih

lemma lookup_upsert_ne {β : Type} (m : List (String × β)) (k k' : String)
    (v : β) (h : k' ≠ k) : (upsert m k v).lookup k' = m.lookup k' := by
  have hkk : (k' == k) = false := beq_eq_false_iff_ne.mpr h
  induction m with
  | nil => simp [upsert, List.lookup, hkk]
  | cons p rest ih =>
    by_cases hpk : p.1 = k
    · have hb : (p.1 == k) = true := beq_iff_eq.mpr hpk
      have hk'p : (k' == p.1) = false :=
        beq_eq_false_iff_ne.mpr (fun hh => h (hh.trans hpk))
      have hstep : upsert (p :: rest) k v =
          (k, v) :: rest.map (fun q => if q.1 == k then (k, v) else q) := by
        simp [upsert, List.any_cons, hb, hpk]
      rw [hstep, List.lookup, hkk, List.lookup, hk'p]
      dsimp only
      clear hstep ih
      -- lookup k' in the mapped tail equals lookup k' in the tail
      induction rest with
      | nil => rfl
      | cons q qs ihq =>
        by_cases hq : q.1 = k
        · have hbq : (q.1 == k) = true := beq_iff_eq.mpr hq
          have hk'q : (k' == q.1) = false :=
            beq_eq_false_iff_ne.mpr (fun hh => h (hh.trans hq))
          rw [List.map_cons, if_pos hbq, List.lookup, hkk, List.lookup, hk'q]
          dsimp only
          exact ihq
        · have hbq : (q.1 == k) = false := beq_eq_false_iff_ne.mpr hq
          have hc : ¬ ((q.1 == k) = true) := by simp [hbq]
          rw [List.map_cons, if_neg hc, List.lookup, List.lookup]
          cases hkq : (k' == q.1) with
          | true => rfl
          | false => dsimp only; exact ihq
    · have hb : (p.1 == k) = false := beq_eq_false_iff_ne.mpr hpk
      cases hany : (rest.any fun q => q.1 == k) with
      | true =>
        have hstep : upsert (p :: rest) k v = p :: upsert rest k v := by
          simp [upsert, List.any_cons, hb, hany, hpk]
        rw [hstep, List.lookup, List.lookup]
        cases hkp : (k' == p.1) with
        | true => rfl
        | false => exact ih
      | false =>
        have hstep : upsert (p :: rest) k v = p :: upsert rest k v := by
          simp [upsert, List.any_cons, hb, hany, hpk]
        rw [hstep, List.lookup, List.lookup]
        cases hkp : (k' == p.1) with
        | true => rfl
        | false => exact ih

lemma upsert_keys_nodup {β : Type} (m : List (String × β)) (k : String)
    (v : β) (h : (m.map Prod.fst).Nodup) :
    ((upsert m k v).map Prod.fst).Nodup := by
  by_cases hany : (m.any fun p => p.1 == k) = true
  · have : (upsert m k v).map Prod.fst = m.map Prod.fst := by
      rw [upsert, if_pos hany, List.map_map]
      apply List.map_congr_left
      intro p _
      by_cases hp : p.1 = k
      · simp [beq_iff_eq.mpr hp, hp]
      · simp [beq_eq_false_iff_ne.mpr hp, hp]
    rw [this]
    exact h
  · have hk : k ∉ m.map Prod.fst := by
      intro hmem
      rcases List.mem_map.mp hmem with ⟨p, hp, hfst⟩
      exact hany (List.any_eq_true.mpr ⟨p, hp, beq_iff_eq.mpr hfst⟩)
    rw [upsert, if_neg hany, List.map_append]
    simp only [List.map_cons, List.map_nil]
    rw [List.nodup_append]
    exact ⟨h, List.nodup_singleton k, by
      intro a ha hb
      rw [List.mem_singleton] at hb
      exact hk (hb ▸ ha)⟩

lemma build_eq_regFold (patterns : List (String × TrackerPattern)) :
    build_domain_patterns patterns = regFold (registrations patterns) [] := by
  suffices h : ∀ m, patterns.foldl
      (fun m pk => pk.2.domains.foldl
        (fun m d => if d ≠ "" then upsert m (strLower d) pk.1 else m) m)
      m = regFold (registrations patterns) m from h []
  induction patterns with
  | nil => intro m; rfl
  | cons pk rest ih =>
    intro m
    simp only [List.foldl_cons, registrations, List.flatMap_cons, regFold,
      List.foldl_append]
    rw [show List.foldl regStep m (pk.2.domains.map fun d => (d, pk.1)) =
      pk.2.domains.foldl
        (fun m d => if d ≠ "" then upsert m (strLower d) pk.1 else m) m from
      by rw [List.foldl_map]; rfl]
    exact ih _

lemma lookup_regFold (regs : List (String × String)) :
    ∀ (m : List (String × String)) (k : String),
      (regFold regs m).lookup k =
        match regs.reverse.find? (regMatches k) with
        | some p => some p.2
        | none => m.lookup k := by
  induction regs with
  | nil => intro m k; rfl
  | cons r rest ih =>
    intro m k
    have hfold : regFold (r :: rest) m = regFold rest (regStep m r) := rfl
    rw [hfold, ih]
    have hrev : (r :: rest).reverse = rest.reverse ++ [r] :=
      List.reverse_cons r rest
    rw [hrev, List.find?_append]
    cases hfind : rest.reverse.find? (regMatches k) with
    | some p => rfl
    | none =>
      simp only [Option.none_or]
      by_cases hr1 : r.1 = ""
      · have hm : regMatches k r = false := by
          simp [regMatches, hr1]
        have : regStep m r = m := by simp [regStep, hr1]
        rw [this]
        simp [List.find?, hm]
      · by_cases hlow : strLower r.1 = k
        · have hm : regMatches k r = true := by
            simp [regMatches, hr1, hlow]
          have hstep : regStep m r = upsert m (strLower r.1) r.2 := by
            simp [regStep, hr1]
          rw [hstep, hlow, lookup_upsert_self]
          simp [List.find?, hm]
        · have hm : regMatches k r = false := by
            simp [regMatches, hlow]
          have hstep : regStep m r = upsert m (strLower r.1) r.2 := by
            simp [regStep, hr1]
          rw [hstep, lookup_upsert_ne _ _ _ _ (fun hh => hlow hh.symm)]
          simp [List.find?, hm]

lemma regFold_keys_nodup (regs : List (String × String)) :
    ∀ m : List (String × String), ((m.map Prod.fst).Nodup) →
      (((regFold regs m).map Prod.fst).Nodup) := by
  induction regs with
  | nil => intro m h; exact h
  | cons r rest ih =>
    intro m h
    have hfold : regFold (r :: rest) m = regFold rest (regStep m r) := rfl
    rw [hfold]
    apply ih
    by_cases hr1 : r.1 = ""
    · simpa [regStep, hr1] using h
    · rw [show regStep m r = upsert m (strLower r.1) r.2 from
        by simp [regStep, hr1]]
      exact upsert_keys_nodup m _ _ h

lemma char_toNat_ofNat {n : Nat} (h : n.isValidChar) :
    (Char.ofNat n).toNat = n := by
  unfold Char.ofNat
  rw [dif_pos h]
  rfl

lemma char_toLower_idem (c : Char) : c.toLower.toLower = c.toLower := by
  unfold Char.toLower
  by_cases h : c.toNat ≥ 65 ∧ c.toNat ≤ 90
  · rw [if_pos h]
    have hv : (c.toNat + 32).isValidChar := Or.inl (by omega)
    rw [char_toNat_ofNat hv, if_neg (by omega)]
  · rw [if_neg h, if_neg h]

lemma strLower_idem (s : String) : strLower (strLower s) = strLower s := by
  unfold strLower
  rw [show ((s.toList.map Char.toLower).asString).toList
      = s.toList.map Char.toLower from rfl, List.map_map]
  congr 1
  apply List.map_congr_left
  intro c _
  exact char_toLower_idem c

/-- C9 counterexample: a pattern declaring the domain `www.Example.com`
registers the index key `www.example.com` — lower-cased but with the `www.`
still present — so not every `domainIndex` key is `www.`-stripped.
(The `www.` stripping happens on the lookup side, in `identify_tracker`,
not when the table is built.) -/
theorem c9_www_not_stripped_counterexample :
    (build_domain_patterns
      [("p1", ⟨none, none, none, ["www.Example.com"]⟩)]).lookup
      ("www.example.com") = some ("p1") ∧
    startsWithChars ("www.".toList) ("www.example.com".toList) = true := by
  exact ⟨by decide, by decide⟩

/-- C9 (amended): after parsing, every key of `domain_patterns` is the
lower-cased form of some nonempty domain declared by some pattern (keys are
lowercase, but not `www.`-stripped); each key maps to exactly one pattern
key (the key list is duplicate-free); and the value stored under a key is
the pattern key of the most recently processed registration claiming it
(last-write-wins), as captured by the reverse-order `find?`. -/
theorem c9_domain_index_amended (patterns : List (String × TrackerPattern)) :
    (∀ k, (build_domain_patterns patterns).lookup k =
      ((registrations patterns).reverse.find? (regMatches k)).map
        (fun p => p.2)) ∧
    (∀ k v, (build_domain_patterns patterns).lookup k = some v →
      strLower k = k ∧
      ∃ pk pd, (pk, pd) ∈ patterns ∧ v = pk ∧
        ∃ d ∈ pd.domains, d ≠ "" ∧ strLower d = k) ∧
    ((build_domain_patterns patterns).map Prod.fst).Nodup := by
  refine ⟨?_, ?_, ?_⟩
  · intro k
    rw [build_eq_regFold, lookup_regFold]
    cases h : (registrations patterns).reverse.find? (regMatches k) <;>
      simp [List.lookup]
  · intro k v hv
    rw [build_eq_regFold, lookup_regFold] at hv
    cases hfind : (registrations patterns).reverse.find? (regMatches k) with
    | none =>
      rw [hfind] at hv
      exact absurd hv (by simp [List.lookup])
    | some p =>
      rw [hfind] at hv
      have hp2 : p.2 = v := by
        simpa using hv
      have hmatch := List.find?_some hfind
      have hmem : p ∈ (registrations patterns).reverse :=
        List.mem_of_find?_eq_some hfind
      rw [List.mem_reverse] at hmem
      have hmm : p.1 ≠ "" ∧ strLower p.1 = k := by
        simpa [regMatches] using hmatch
      constructor
      · rw [← hmm.2, strLower_idem]
      · rcases List.mem_flatMap.mp hmem with ⟨pkpd, hpat, hreg⟩
        rcases List.mem_map.mp hreg with ⟨d, hd, hde⟩
        refine ⟨pkpd.1, pkpd.2, by simpa using hpat, ?_, d, hd, ?_, ?_⟩
        · rw [← hp2, ← hde]
        · have : p.1 = d := by rw [← hde]
          rw [← this]
          exact hmm.1
        · have : p.1 = d := by rw [← hde]
          rw [← this]
          exact hmm.2
  · rw [build_eq_regFold]
    exact regFold_keys_nodup _ [] (by simp)

/-- C9 witness: the amended provenance statement applied to a one-pattern
database declaring `Google.com`, whose index key is `google.com`. -/
theorem c9_domain_index_amended_witness :
    strLower ("google.com") = "google.com" ∧
    ∃ pk pd, (pk, pd) ∈ ([("p1", ⟨none, none, none, ["Google.com"]⟩)] :
        List (String × TrackerPattern)) ∧ "p1" = pk ∧
      ∃ d ∈ pd.domains, d ≠ "" ∧ strLower d = "google.com" :=
  (c9_domain_index_amended
    [("p1", ⟨none, none, none, ["Google.com"]⟩)]).2.1
    ("google.com") ("p1") (by decide)

/-! ## Third-party tracker extraction
(`StealthDetector._detect_third_party_trackers`) -/

lemma lexLe_total : ∀ a b : List Char, lexLe a b = true ∨ lexLe b a = true := by
  intro a
  induction a with
  | nil => intro b; exact Or.inl rfl
  | cons x xs ih =>
    intro b
    cases b with
    | nil => exact Or.inr rfl
    | cons y ys =>
      rcases lt_trichotomy x y with h | h | h
      · left
        simp [lexLe, h]
      · subst h
        rcases ih ys with h' | h'
        · left
          simp [lexLe, h']
        · right
          simp [lexLe, h']
      · right
        simp [lexLe, h]

lemma lexLe_trans : ∀ a b c : List Char, lexLe a b = true →
    lexLe b c = true → lexLe a c = true := by
  intro a
  induction a with
  | nil => intro b c _ _; rfl
  | cons x xs ih =>
    intro b c hab hbc
    cases b with
    | nil => simp [lexLe] at hab
    | cons y ys =>
      cases c with
      | nil => simp [lexLe] at hbc
      | cons z zs =>
        simp only [lexLe] at hab hbc ⊢
        by_cases hxy : x < y
        · by_cases hyz : y < z
          · rw [if_pos (lt_trans hxy hyz)]
          · by_cases hyz' : y = z
            · subst hyz'
              rw [if_pos hxy]
            · rw [if_neg hyz, if_neg hyz'] at hbc
              exact absurd hbc (by simp)
        · by_cases hxy' : x = y
          · subst hxy'
            rw [if_neg hxy, if_pos rfl] at hab
            by_cases hyz : x < z
            · rw [if_pos hyz]
            · by_cases hyz' : x = z
              · subst hyz'
                rw [if_neg hyz, if_pos rfl] at hbc ⊢
                exact ih ys zs hab hbc
              · rw [if_neg hyz, if_neg hyz'] at hbc
                exact absurd hbc (by simp)
          · rw [if_neg hxy, if_neg hxy'] at hab
            exact absurd hab (by simp)

instance : IsTotal String strLe :=
  ⟨fun a b => lexLe_total a.toList b.toList⟩

instance : IsTrans String strLe :=
  ⟨fun a b c => lexLe_trans a.toList b.toList c.toList⟩

/-- First-occurrence de-duplication against an accumulator of already seen
values: this is the `if name not in seen_set: seen_set.add(name);
out.append(name)` idiom of lines 858-877. -/
def dedupFirstAux (seen : List String) : List String → List String
  | [] => []
  | x :: xs =>
    if x ∈ seen then dedupFirstAux seen xs
    else x :: dedupFirstAux (x :: seen) xs

/-- First-occurrence de-duplication of a list. -/
def dedupFirst (l : List String) : List String := dedupFirstAux [] l

lemma mem_dedupFirstAux : ∀ (l seen : List String) (u : String),
    u ∈ dedupFirstAux seen l ↔ u ∈ l ∧ u ∉ seen := by
  intro l
  induction l with
  | nil => intro seen u; simp [dedupFirstAux]
  | cons x xs ih =>
    intro seen u
    by_cases hx : x ∈ seen
    · rw [dedupFirstAux, if_pos hx, ih]
      constructor
      · rintro ⟨hu, hs⟩
        exact ⟨List.mem_cons_of_mem x hu, hs⟩
      · rintro ⟨hu, hs⟩
        rcases List.mem_cons.mp hu with rfl | hu
        · exact absurd hx hs
        · exact ⟨hu, hs⟩
    · rw [dedupFirstAux, if_neg hx]
      constructor
      · intro hu
        rcases List.mem_cons.mp hu with rfl | hu
        · exact ⟨List.mem_cons_self u xs, hx⟩
        · rcases (ih (x :: seen) u).mp hu with ⟨h1, h2⟩
          exact ⟨List.mem_cons_of_mem x h1,
            fun hs => h2 (List.mem_cons_of_mem x hs)⟩
      · rintro ⟨hu, hs⟩
        rcases List.mem_cons.mp hu with rfl | hu
        · exact List.mem_cons_self u _
        · by_cases hux : u = x
          · subst hux
            exact List.mem_cons_self u _
          · exact List.mem_cons_of_mem x ((ih (x :: seen) u).mpr
              ⟨hu, fun hmem => by
                rcases List.mem_cons.mp hmem with h | h
                · exact hux h
                · exact hs h⟩)

lemma mem_dedupFirst (l : List String) (u : String) :
    u ∈ dedupFirst l ↔ u ∈ l := by
  rw [dedupFirst, mem_dedupFirstAux]
  simp

lemma nodup_dedupFirstAux : ∀ (l seen : List String),
    (dedupFirstAux seen l).Nodup := by
  intro l
  induction l with
  | nil => intro seen; simp [dedupFirstAux]
  | cons x xs ih =>
    intro seen
    by_cases hx : x ∈ seen
    · rw [dedupFirstAux, if_pos hx]
      exact ih seen
    · rw [dedupFirstAux, if_neg hx]
      refine List.Nodup.cons ?_ (ih (x :: seen))
      intro hmem
      exact ((mem_dedupFirstAux xs (x :: seen) x).mp hmem).2
        (List.mem_cons_self x seen)

lemma nodup_dedupFirst (l : List String) : (dedupFirst l).Nodup :=
  nodup_dedupFirstAux l []

/-- Python's `list.sort()` on strings: a stable sort under code-point
lexicographic order.  On the duplicate-free lists it is applied to here, any
correct sort produces the same output, so insertion sort is an exact
model. -/
def sortStrings (l : List String) : List String := List.insertionSort strLe l

lemma mem_sortStrings (l : List String) (u : String) :
    u ∈ sortStrings l ↔ u ∈ l :=
  List.mem_insertionSort strLe

lemma sorted_sortStrings (l : List String) :
    List.Sorted strLe (sortStrings l) :=
  List.sorted_insertionSort strLe l

lemma nodup_sortStrings (l : List String) (h : l.Nodup) :
    (sortStrings l).Nodup :=
  ((List.perm_insertionSort strLe l).nodup_iff).mpr h

/-- The provider state `_detect_third_party_trackers` consults:
`is_loaded`, the `domain_patterns` index and the `tracker_info` table. -/
structure GhosteryDB where
  is_loaded : Bool
  domain_patterns : List (String × String)
  tracker_info : List (String × TrackerInfo)

/-- Embedding of `GhosteryTrackerDB.identify_tracker` (lines 415-455).
Returns nothing when the provider never loaded; otherwise lower-cases the
URL, takes its host, strips every `www.` occurrence (Python
`str.replace`), tries an exact `domain_patterns` hit, and falls back to the
first registered domain that is a dot-suffix of the host or a substring of
it.  The Python method copies the matched `tracker_info` record and adds
`matched_domain` / `full_url` bookkeeping fields; only the record itself is
modelled, as nothing downstream reads those extras besides logging. -/
def identify_tracker (db : GhosteryDB) (url : String) : Option TrackerInfo :=
  if db.is_loaded = false then none
  else
    let domain := strRemoveAll (netloc (strLower url)) ("www.")
    match db.domain_patterns.lookup domain with
    | some pattern_key => db.tracker_info.lookup pattern_key
    | none =>
      match db.domain_patterns.find? (fun p =>
          endsWithChars ('.' :: p.1.toList) domain.toList ||
            hasSubChars p.1.toList domain.toList) with
      | some p => db.tracker_info.lookup p.2
      | none => none

/-- One captured network request (`_setup_network_monitoring`,
lines 614-629); only the fields the extraction reads are modelled. -/
structure NetworkRequest where
  url : String
  timestamp : ℚ

/-- The per-request body of the attribution loop (lines 835-855): skip GTM's
own domain outright, score the request, and keep it only when the score
exceeds 0.5 and the TrackerDB names it. -/
def attributed_of_request (db : GhosteryDB) (gtm_detected : Bool)
    (gtm_load_time : Option ℚ) (r : NetworkRequest) :
    Option (TrackerInfo × String) :=
  if strContainsSub r.url ("googletagmanager.com") then none
  else if calculate_gtm_attribution gtm_load_time gtm_detected
      r.timestamp > 1/2 then
    (identify_tracker db r.url).map (fun ti => (ti, r.url))
  else none

/-- Embedding of `StealthDetector._detect_third_party_trackers`
(lines 809-898): empty output when the TrackerDB is not loaded or GTM was
not detected; otherwise the attributed requests are reduced to
first-occurrence-unique tracker names and nonempty request hosts, each list
finally sorted in place. -/
def detect_third_party_trackers (db : GhosteryDB) (gtm_detected : Bool)
    (gtm_load_time : Option ℚ) (network_requests : List NetworkRequest) :
    List String × List String :=
  if db.is_loaded = false then ([], [])
  else if gtm_detected = false then ([], [])
  else
    let gtm_attributed := network_requests.filterMap
      (attributed_of_request db gtm_detected gtm_load_time)
    let detected_trackers := dedupFirst
      (gtm_attributed.map (fun p => p.1.name))
    let detected_domains := dedupFirst
      ((gtm_attributed.map (fun p => netloc p.2)).filter
        (fun d => decide (d ≠ "")))
    (sortStrings detected_trackers, sortStrings detected_domains)

lemma attributed_of_request_eq_some (db : GhosteryDB) (g : Bool)
    (glt : Option ℚ) (r : NetworkRequest) (p : TrackerInfo × String) :
    attributed_of_request db g glt r = some p ↔
      strContainsSub r.url ("googletagmanager.com") = false ∧
      calculate_gtm_attribution glt g r.timestamp > 1/2 ∧
      identify_tracker db r.url = some p.1 ∧ p.2 = r.url := by
  unfold attributed_of_request
  by_cases h1 : strContainsSub r.url ("googletagmanager.com") = true
  · rw [if_pos h1]
    simp [h1]
  · have h1' : strContainsSub r.url ("googletagmanager.com") = false := by
      simpa using h1
    rw [if_neg (by simp [h1'])]
    by_cases h2 : calculate_gtm_attribution glt g r.timestamp > 1/2
    · rw [if_pos h2]
      cases hid : identify_tracker db r.url with
      | none => simp [h1', h2, hid]
      | some ti =>
        cases p with
        | mk pa pb =>
          simp only [hid, h1', h2, true_and, Option.map, Option.some.injEq,
            Prod.mk.injEq]
          constructor
          · rintro ⟨rfl, rfl⟩
            exact ⟨rfl, rfl⟩
          · rintro ⟨rfl, rfl⟩
            exact ⟨rfl, rfl⟩
    · rw [if_neg h2]
      constructor
      · intro hcontra
        exact Option.noConfusion hcontra
      · rintro ⟨_, hgt, _, _⟩
        exact absurd hgt h2

/-- C8: third-party tracker extraction counts a network request as
GTM-attributed only when its attribution score strictly exceeds 0.5;
requests on GTM's own domain are skipped before scoring; attributed
requests the TrackerDB cannot name are silently excluded; and both output
lists are duplicate-free and lexicographically sorted.  The membership
characterizations make the whole pipeline explicit, including that nothing
is reported when the TrackerDB is unloaded or GTM was not detected. -/
theorem c8_third_party_extraction (db : GhosteryDB) (g : Bool)
    (glt : Option ℚ) (reqs : List NetworkRequest) :
    (detect_third_party_trackers db g glt reqs).1.Nodup ∧
    (detect_third_party_trackers db g glt reqs).2.Nodup ∧
    List.Sorted strLe (detect_third_party_trackers db g glt reqs).1 ∧
    List.Sorted strLe (detect_third_party_trackers db g glt reqs).2 ∧
    (∀ name, name ∈ (detect_third_party_trackers db g glt reqs).1 ↔
      db.is_loaded = true ∧ g = true ∧
      ∃ r ∈ reqs, strContainsSub r.url ("googletagmanager.com") = false ∧
        calculate_gtm_attribution glt g r.timestamp > 1/2 ∧
        ∃ ti, identify_tracker db r.url = some ti ∧ ti.name = name) ∧
    (∀ dom, dom ∈ (detect_third_party_trackers db g glt reqs).2 ↔
      db.is_loaded = true ∧ g = true ∧ dom ≠ "" ∧
      ∃ r ∈ reqs, strContainsSub r.url ("googletagmanager.com") = false ∧
        calculate_gtm_attribution glt g r.timestamp > 1/2 ∧
        (∃ ti, identify_tracker db r.url = some ti) ∧
        netloc r.url = dom) := by
  cases hload : db.is_loaded with
  | false =>
    have hd : detect_third_party_trackers db g glt reqs = ([], []) := by
      unfold detect_third_party_trackers
      rw [if_pos hload]
    rw [hd]
    simp [hload]
  | true =>
    cases g with
    | false =>
      have hd : detect_third_party_trackers db false glt reqs = ([], []) := by
        unfold detect_third_party_trackers
        rw [if_neg (by simp [hload]), if_pos rfl]
      rw [hd]
      simp
    | true =>
      have hd : detect_third_party_trackers db true glt reqs =
          (sortStrings (dedupFirst
            ((reqs.filterMap (attributed_of_request db true glt)).map
              (fun p => p.1.name))),
           sortStrings (dedupFirst
            (((reqs.filterMap (attributed_of_request db true glt)).map
              (fun p => netloc p.2)).filter (fun d => decide (d ≠ ""))))) := by
        unfold detect_third_party_trackers
        rw [if_neg (by simp [hload]), if_neg (by simp)]
      rw [hd]
      refine ⟨nodup_sortStrings _ (nodup_dedupFirst _),
        nodup_sortStrings _ (nodup_dedupFirst _),
        sorted_sortStrings _, sorted_sortStrings _, ?_, ?_⟩
      · intro name
        simp only [hload, true_and]
        rw [mem_sortStrings, mem_dedupFirst, List.mem_map]
        constructor
        · rintro ⟨p, hp, hname⟩
          rcases List.mem_filterMap.mp hp with ⟨r, hr, hfr⟩
          rcases (attributed_of_request_eq_some db true glt r p).mp hfr
            with ⟨hc1, hc2, hc3, _⟩
          exact ⟨r, hr, hc1, hc2, p.1, hc3, hname⟩
        · rintro ⟨r, hr, hc1, hc2, ti, hti, hname⟩
          refine ⟨(ti, r.url), List.mem_filterMap.mpr ⟨r, hr, ?_⟩, hname⟩
          exact (attributed_of_request_eq_some db true glt r
            (ti, r.url)).mpr ⟨hc1, hc2, hti, rfl⟩
      · intro dom
        simp only [hload, true_and]
        rw [mem_sortStrings, mem_dedupFirst, List.mem_filter]
        simp only [decide_eq_true_eq, List.mem_map]
        constructor
        · rintro ⟨⟨p, hp, hdom⟩, hne⟩
          rcases List.mem_filterMap.mp hp with ⟨r, hr, hfr⟩
          rcases (attributed_of_request_eq_some db true glt r p).mp hfr
            with ⟨hc1, hc2, hc3, hc4⟩
          exact ⟨hne, r, hr, hc1, hc2, ⟨p.1, hc3⟩, by rw [← hc4, hdom]⟩
        · rintro ⟨hne, r, hr, hc1, hc2, ⟨ti, hti⟩, hdom⟩
          refine ⟨⟨(ti, r.url), List.mem_filterMap.mpr ⟨r, hr, ?_⟩, hdom⟩,
            hne⟩
          exact (attributed_of_request_eq_some db true glt r
            (ti, r.url)).mpr ⟨hc1, hc2, hti, rfl⟩

end GTMParser
